import Mathlib

/-!
Verification of the workforce job-board backend core: the readiness /
skills-match / eligibility scoring engine, application admission control,
the job search filter pipeline, the recommendation engine, and the two
lifecycle handlers (publish requisition, update application status).

The TypeScript handlers are embedded shallowly: the relational store is a
record of lists, each handler is a pure function from inputs and a store to
a result (and possibly an updated store), and JavaScript value coercions
(truthiness of strings and numbers, nullable columns) are made explicit.
Time (`new Date()` / `now()`) is passed as an explicit natural-number
parameter.  SQL `ILIKE '%pat%'` on the user-supplied patterns that appear
here is modelled as case-insensitive substring containment.  Numeric
columns are modelled as rationals; integer-valued scores as integers.
-/

namespace JobBoard

/-- Substring test on character lists: does `needle` occur (contiguously)
anywhere inside the list? -/
def containsSubList (needle : List Char) : List Char → Bool
  | [] => needle.isEmpty
  | a :: as => needle.isPrefixOf (a :: as) || containsSubList needle as

/-- JavaScript `hay.includes(needle)`: `needle` occurs as a substring of
`hay`. -/
def strContains (hay needle : String) : Bool :=
  containsSubList needle.data hay.data

/-- JavaScript `s.toLowerCase()`, modelled characterwise (structural, so
that concrete instances evaluate inside the kernel). -/
def strLower (s : String) : String := ⟨s.data.map Char.toLower⟩

/-- Leading-whitespace stripper for the model of `trim`. -/
def trimLeftChars : List Char → List Char
  | [] => []
  | c :: cs => if c.isWhitespace then trimLeftChars cs else c :: cs

/-- JavaScript `s.trim()`: strip leading and trailing whitespace. -/
def strTrim (s : String) : String :=
  ⟨(trimLeftChars (trimLeftChars s.data.reverse).reverse)⟩

/-- Case-insensitive substring containment, the model of SQL
`col ILIKE '%pat%'` for the patterns built by the handlers. -/
def strContainsCI (hay pat : String) : Bool :=
  strContains (strLower hay) (strLower pat)

/-- JavaScript truthiness of a nullable string: `null`/`undefined` and the
empty string are falsy. -/
def jsTruthyStr : Option String → Bool
  | none => false
  | some s => s ≠ ""

/-- JavaScript `s?.toLowerCase() || ''` on a nullable string. -/
def jsLowerOrEmpty : Option String → String
  | none => ""
  | some s => strLower s

/-- JavaScript `x || null` on a nullable string: the empty string collapses
to `null`. -/
def jsStrOrNull : Option String → Option String
  | none => none
  | some s => if s = "" then none else some s

/-- JavaScript `x || 0` on a nullable number. -/
def jsNumOrZero : Option Int → Int
  | none => 0
  | some n => n

/-- JavaScript truthiness of a nullable number: `null`/`undefined` and `0`
are falsy. -/
def jsTruthyNum : Option Nat → Bool
  | none => false
  | some n => n ≠ 0

/-- JavaScript `Math.round`: round half toward positive infinity. -/
def jsRound (q : ℚ) : ℤ := ⌊q + 1 / 2⌋

/-- JavaScript `Math.min(Math.max(x, 0), 100)` on an integer score. -/
def clampInt (x : ℤ) : ℤ := min (max x 0) 100

/-- JavaScript `Math.min(Math.max(x, 0), 100)` on a rational score. -/
def clampRat (x : ℚ) : ℚ := min (max x 0) 100

/-! ### Enumerations (from `db/schema.ts`) -/

/-- `job_status` enum: draft / active / paused / closed / archived. -/
inductive JobStatus
  | draft | active | paused | closed | archived
deriving DecidableEq, Repr

/-- `visibility_level` enum: public / internal / restricted / private. -/
inductive VisibilityLevel
  | public | internal | restricted | «private»
deriving DecidableEq, Repr

/-- `application_path` enum: direct / vendor / consent_based. -/
inductive ApplicationPath
  | direct | vendor | consent_based
deriving DecidableEq, Repr

/-- `application_status` enum: pending / reviewing / interviewed / rejected
/ accepted / withdrawn. -/
inductive ApplicationStatus
  | pending | reviewing | interviewed | rejected | accepted | withdrawn
deriving DecidableEq, Repr

/-! ### Rows of the relational store (from `db/schema.ts`), restricted to
the columns the verified handlers read or write. -/

/-- A row of `users` (a candidate profile). -/
structure User where
  id : Nat
  email : String
  first_name : String
  last_name : String
  phone : Option String
  resume_url : Option String
  linkedin_url : Option String
  portfolio_url : Option String
  location : Option String
  preferred_locations : List String
  skills : List String
  experience_years : Option Int
deriving DecidableEq, Repr

/-- A row of `job_requisitions`. -/
structure JobRequisition where
  id : Nat
  organization_id : Nat
  title : String
  description : String
  requirements : String
  responsibilities : String
  location : String
  remote_allowed : Bool
  employment_type : String
  salary_min : Option ℚ
  salary_max : Option ℚ
  visibility_level : VisibilityLevel
  allowed_application_paths : List ApplicationPath
  status : JobStatus
  published_at : Option Nat
  updated_at : Nat
deriving DecidableEq, Repr

/-- A row of `vendors`, restricted to the columns admission control reads. -/
structure Vendor where
  id : Nat
  is_active : Bool
deriving DecidableEq, Repr

/-- A row of `job_applications`. -/
structure JobApplication where
  id : Nat
  job_id : Nat
  user_id : Nat
  application_path : ApplicationPath
  vendor_id : Option Nat
  cover_letter : Option String
  resume_url : Option String
  custom_responses : List (String × String)
  eligibility_score : ℤ
  readiness_score : ℤ
  skills_match_percentage : ℚ
  status : ApplicationStatus
  applied_at : Nat
  last_updated : Nat
  consent_given : Bool
  consent_timestamp : Option Nat
deriving DecidableEq, Repr

/-- The relational store. -/
structure DB where
  users : List User
  jobs : List JobRequisition
  vendors : List Vendor
  applications : List JobApplication
deriving DecidableEq, Repr

/-- `SELECT * FROM users WHERE id = uid` (first matching row). -/
def findUser (db : DB) (uid : Nat) : Option User :=
  db.users.find? (fun u => u.id == uid)

/-- `SELECT * FROM job_requisitions WHERE id = jid` (first matching row). -/
def findJob (db : DB) (jid : Nat) : Option JobRequisition :=
  db.jobs.find? (fun j => j.id == jid)

/-! ### The scoring engine (`calculateSkillsMatch`,
`calculateEligibilityScore`, `calculateReadinessScore`) -/

/-- `calculateSkillsMatch(userId, jobId)`: percentage of the candidate's
skills (lowercased, trimmed) found as substrings of the lowercased
`requirements + ' ' + description` text; 0 when the candidate has no
skills or either entity is missing.  A skill that is empty after trimming
is falsy in JavaScript and never counts as a match. -/
def calculateSkillsMatch (userId jobId : Nat) (db : DB) : ℚ :=
  match findUser db userId, findJob db jobId with
  | some user, some job =>
    let userSkills := user.skills.map (fun skill => strTrim (strLower skill))
    if userSkills.length = 0 then 0
    else
      let jobText := strLower (job.requirements ++ " " ++ job.description)
      let matchingSkills :=
        (userSkills.filter (fun skill => skill ≠ "" && strContains jobText skill)).length
      let percentage := ((matchingSkills : ℚ) / (userSkills.length : ℚ)) * 100
      clampRat percentage
  | _, _ => 0

/-- `calculateEligibilityScore(userId, jobId)`: location fit + experience
banding + scaled skills match + profile-completeness bonus, clamped to
[0,100]; 0 when either entity is missing. -/
def calculateEligibilityScore (userId jobId : Nat) (db : DB) : ℤ :=
  match findUser db userId, findJob db jobId with
  | some user, some job =>
    let userLocation := jsLowerOrEmpty user.location
    let jobLocation := strLower job.location
    let preferredLocations := user.preferred_locations
    let locationScore : ℤ :=
      if job.remote_allowed then 20
      else if userLocation ≠ "" && jobLocation ≠ "" && strContains userLocation jobLocation then 20
      else if preferredLocations.any (fun loc => strContains (strLower loc) jobLocation) then 15
      else 0
    let userExperience := jsNumOrZero user.experience_years
    let experienceScore : ℤ :=
      if userExperience ≥ 5 then 30
      else if userExperience ≥ 2 then 20
      else if userExperience ≥ 1 then 10
      else 0
    let userSkills := user.skills
    let skillsMatchScore := calculateSkillsMatch userId jobId db
    let skillsScore : ℤ := jsRound (skillsMatchScore * (2 / 5))
    let completenessBonus : ℤ :=
      (if jsTruthyStr user.resume_url then 3 else 0)
      + (if jsTruthyStr user.linkedin_url then 2 else 0)
      + (if jsTruthyStr user.portfolio_url then 2 else 0)
      + (if userSkills.length > 0 then 3 else 0)
    clampInt (locationScore + experienceScore + skillsScore + completenessBonus)
  | _, _ => 0

/-- `calculateReadinessScore(userId)`: profile-completeness score, clamped
to [0,100]; 0 when the candidate is missing. -/
def calculateReadinessScore (userId : Nat) (db : DB) : ℤ :=
  match findUser db userId with
  | some user =>
    let score : ℤ :=
      (if user.first_name ≠ "" && user.last_name ≠ "" then 10 else 0)
      + (if user.email ≠ "" then 10 else 0)
      + (if jsTruthyStr user.phone then 10 else 0)
      + (if jsTruthyStr user.resume_url then 20 else 0)
      + (if user.experience_years.isSome then 10 else 0)
      + (if jsTruthyStr user.location then 10 else 0)
      + (if user.skills.length > 0 then 10 else 0)
      + (if user.preferred_locations.length > 0 then 5 else 0)
      + (if jsTruthyStr user.linkedin_url then 5 else 0)
      + (if jsTruthyStr user.portfolio_url then 5 else 0)
    clampInt score
  | none => 0

/-! ### Spec-side formulations of the scoring claims -/

/-- The lowercased `requirements + ' ' + description` haystack used by the
skills matcher. -/
def skillsHaystack (j : JobRequisition) : String :=
  strLower (j.requirements ++ " " ++ j.description)

/-- The candidate's skills, lowercased and trimmed. -/
def normalizedSkills (u : User) : List String :=
  u.skills.map (fun skill => strTrim (strLower skill))

/-- Number of normalized skills that are non-empty and occur as substrings
of the job's haystack (the quantity the code actually counts). -/
def matchedSkillCount (u : User) (j : JobRequisition) : Nat :=
  ((normalizedSkills u).filter
    (fun skill => skill ≠ "" && strContains (skillsHaystack j) skill)).length

/-- Experience banding from the claim: 30 for at least 5 years, 20 for at
least 2, 10 for at least 1, else 0 (null giving 0). -/
def experienceBandSpec (u : User) : ℤ :=
  if jsNumOrZero u.experience_years ≥ 5 then 30
  else if jsNumOrZero u.experience_years ≥ 2 then 20
  else if jsNumOrZero u.experience_years ≥ 1 then 10
  else 0

/-- Profile bonus from the claim: 3 for a resume, 2 for linkedin, 2 for a
portfolio, 3 for a non-empty skills list. -/
def profileBonusSpec (u : User) : ℤ :=
  (if jsTruthyStr u.resume_url then 3 else 0)
  + (if jsTruthyStr u.linkedin_url then 2 else 0)
  + (if jsTruthyStr u.portfolio_url then 2 else 0)
  + (if u.skills ≠ [] then 3 else 0)

/-- Location fit exactly as the claim words it: 20 when remote is allowed;
else 20 when the candidate's location substring-matches the job's
location; else 15 when some preferred location substring-matches the job's
location; else 0.  Substring-matching is read as case-insensitive
containment in the direction the code uses for non-empty strings (the
job's location occurring within the candidate's). -/
def locationFitClaim (u : User) (j : JobRequisition) : ℤ :=
  if j.remote_allowed then 20
  else if strContains (jsLowerOrEmpty u.location) (strLower j.location) then 20
  else if u.preferred_locations.any (fun loc => strContains (strLower loc) (strLower j.location)) then 15
  else 0

/-- Location fit as the code computes it: the candidate-location branch
additionally requires both lowercased locations to be non-empty, while the
preferred-location branch has no such guard. -/
def locationFitAmended (u : User) (j : JobRequisition) : ℤ :=
  if j.remote_allowed then 20
  else if jsLowerOrEmpty u.location ≠ "" ∧ strLower j.location ≠ ""
          ∧ strContains (jsLowerOrEmpty u.location) (strLower j.location) = true then 20
  else if u.preferred_locations.any (fun loc => strContains (strLower loc) (strLower j.location)) then 15
  else 0

/-- The eligibility score exactly as C1 words it (using
`locationFitClaim` for the location component). -/
def eligibilityClaimFormula (db : DB) (uid jid : Nat) : ℤ :=
  match findUser db uid, findJob db jid with
  | some u, some j =>
    clampInt (locationFitClaim u j + experienceBandSpec u
      + jsRound (calculateSkillsMatch uid jid db * (2 / 5)) + profileBonusSpec u)
  | _, _ => 0

/-- The readiness score as C3 words it: ten independent indicator terms. -/
def readinessSpec (u : User) : ℤ :=
  (if u.first_name ≠ "" ∧ u.last_name ≠ "" then 10 else 0)
  + (if u.email ≠ "" then 10 else 0)
  + (if jsTruthyStr u.phone then 10 else 0)
  + (if jsTruthyStr u.resume_url then 20 else 0)
  + (if u.experience_years ≠ none then 10 else 0)
  + (if jsTruthyStr u.location then 10 else 0)
  + (if u.skills ≠ [] then 10 else 0)
  + (if u.preferred_locations ≠ [] then 5 else 0)
  + (if jsTruthyStr u.linkedin_url then 5 else 0)
  + (if jsTruthyStr u.portfolio_url then 5 else 0)

/-! ### Concrete states used by counterexamples and witnesses -/

/-- A minimal candidate profile. -/
def baseUser : User :=
  { id := 1, email := "e", first_name := "f", last_name := "l",
    phone := none, resume_url := none, linkedin_url := none,
    portfolio_url := none, location := none, preferred_locations := [],
    skills := [], experience_years := none }

/-- A minimal active public job requisition. -/
def baseJob : JobRequisition :=
  { id := 1, organization_id := 1, title := "t", description := "d",
    requirements := "r", responsibilities := "s", location := "loc",
    remote_allowed := false, employment_type := "full-time",
    salary_min := none, salary_max := none,
    visibility_level := .public, allowed_application_paths := [.direct],
    status := .active, published_at := some 1, updated_at := 0 }

/-- Candidate for the C1 counterexample: a non-empty current location and
one preferred location. -/
def cexUser1 : User :=
  { baseUser with location := some "x", preferred_locations := ["paris"] }

/-- Job for the C1 counterexample: an empty location, remote not allowed. -/
def cexJob1 : JobRequisition := { baseJob with location := "" }

/-- Store for the C1 counterexample. -/
def cexDb1 : DB :=
  { users := [cexUser1], jobs := [cexJob1], vendors := [], applications := [] }

/-- Candidate for the C2 counterexample: a single all-whitespace skill. -/
def cexUser2 : User := { baseUser with skills := [" "] }

/-- Job for the C2 counterexample. -/
def cexJob2 : JobRequisition := { baseJob with requirements := "a", description := "b" }

/-- Store for the C2 counterexample. -/
def cexDb2 : DB :=
  { users := [cexUser2], jobs := [cexJob2], vendors := [], applications := [] }

/-! ### Theorems for the scoring claims -/

/-- C3: for every store and candidate id, `calculateReadinessScore` is the
clamped sum of the ten weighted presence indicators (10 for first+last
name, 10 for email, 10 for phone, 20 for resume, 10 for experience-years
set — 0 included —, 10 for location, 10 for a non-empty skills list, 5 for
a non-empty preferred-locations list, 5 for linkedin, 5 for portfolio),
with empty strings counting as absent, and it is 0 for a non-existent
candidate id. -/
theorem calculateReadinessScore_spec (db : DB) (uid : Nat) :
    calculateReadinessScore uid db =
      match findUser db uid with
      | some u => clampInt (readinessSpec u)
      | none => 0 := by
  unfold calculateReadinessScore readinessSpec
  cases findUser db uid with
  | none => rfl
  | some u =>
    simp only [Option.isSome_iff_ne_none, List.length_pos, ne_eq,
      Bool.and_eq_true, decide_eq_true_eq]

/-- C1 (counterexample): at a job with an empty location and a candidate
with a non-empty location, the code scores the location component through
the preferred-location branch (15) although the candidate's location
substring-matches the job's (empty) location, so the claimed formula gives
20: the claim as stated fails. -/
theorem calculateEligibilityScore_claim_cex :
    calculateEligibilityScore 1 1 cexDb1 = 15 ∧
    eligibilityClaimFormula cexDb1 1 1 = 20 ∧ (15 : ℤ) ≠ 20 := by
  refine ⟨?_, ?_, by decide⟩ <;>
  · simp only [calculateEligibilityScore, eligibilityClaimFormula, cexDb1, cexUser1, cexJob1,
      baseUser, baseJob, findUser, findJob, calculateSkillsMatch, locationFitClaim,
      experienceBandSpec, profileBonusSpec, jsNumOrZero, jsTruthyStr, jsLowerOrEmpty,
      jsRound, clampInt, List.find?]
    norm_num [strContains, strLower, containsSubList, List.isPrefixOf]

/-- C1 (amended): `calculateEligibilityScore` is the clamped sum of the
four sub-scores as claimed, except that the candidate-location branch of
the location fit additionally requires both lowercased locations to be
non-empty (while the preferred-location branch tests containment of the
job's lowercased location with no non-emptiness guard); it returns 0 when
the candidate or the job does not exist. -/
theorem calculateEligibilityScore_amended (db : DB) (uid jid : Nat) :
    calculateEligibilityScore uid jid db =
      match findUser db uid, findJob db jid with
      | some u, some j =>
        clampInt (locationFitAmended u j + experienceBandSpec u
          + jsRound (calculateSkillsMatch uid jid db * (2 / 5)) + profileBonusSpec u)
      | _, _ => 0 := by
  unfold calculateEligibilityScore locationFitAmended experienceBandSpec profileBonusSpec
  cases findUser db uid with
  | none => rfl
  | some u =>
    cases findJob db jid with
    | none => rfl
    | some j =>
      simp only [List.length_pos, ne_eq, Bool.and_eq_true, decide_eq_true_eq,
        eq_iff_iff, and_assoc]

/-- The clamp to [0,100] is the identity on a match ratio scaled to a
percentage. -/
theorem clampRat_ratio (m n : Nat) (h : m ≤ n) :
    clampRat (((m : ℚ) / (n : ℚ)) * 100) = ((m : ℚ) / (n : ℚ)) * 100 := by
  have h0 : (0 : ℚ) ≤ ((m : ℚ) / (n : ℚ)) * 100 := by positivity
  have h1 : ((m : ℚ) / (n : ℚ)) * 100 ≤ 100 := by
    rcases Nat.eq_zero_or_pos n with hn | hn
    · subst hn
      interval_cases m
      norm_num
    · have hn' : (0 : ℚ) < (n : ℚ) := by exact_mod_cast hn
      have : (m : ℚ) / (n : ℚ) ≤ 1 := by
        rw [div_le_one hn']
        exact_mod_cast h
      nlinarith
  unfold clampRat
  rw [max_eq_left h0, min_eq_left h1]

/-- A scaled match ratio hits 100 exactly when every skill matched. -/
theorem ratio_eq_hundred_iff (m n : Nat) (hn : n ≠ 0) (h : m ≤ n) :
    ((m : ℚ) / (n : ℚ)) * 100 = 100 ↔ m = n := by
  have hn' : ((n : ℚ)) ≠ 0 := Nat.cast_ne_zero.mpr hn
  constructor
  · intro hq
    have hmn : (m : ℚ) = (n : ℚ) := by
      field_simp at hq
      linarith
    exact_mod_cast hmn
  · intro hmn
    subst hmn
    rw [div_self hn']
    norm_num

/-- C2 (counterexample): a candidate whose only skill is a single space.
After lowercasing and trimming, the skill is the empty string, which does
occur as a substring of the haystack, so the claimed formula yields 100,
but the code's falsiness guard skips empty skills and returns 0: the
claimed characterization (100 iff every skill substring-matches) fails. -/
theorem calculateSkillsMatch_claim_cex :
    calculateSkillsMatch 1 1 cexDb2 = 0 ∧
    (∀ s ∈ cexUser2.skills,
      strContains (skillsHaystack cexJob2) (strTrim (strLower s)) = true) ∧
    ((0 : ℚ) ≠ 100) := by
  refine ⟨?_, by decide, by norm_num⟩
  have hstep : calculateSkillsMatch 1 1 cexDb2 =
      if (normalizedSkills cexUser2).length = 0 then (0 : ℚ)
      else clampRat (((matchedSkillCount cexUser2 cexJob2 : ℚ)
        / ((normalizedSkills cexUser2).length : ℚ)) * 100) := rfl
  have h0 : matchedSkillCount cexUser2 cexJob2 = 0 := by decide
  have h1 : (normalizedSkills cexUser2).length = 1 := by decide
  rw [hstep, h1, h0]
  norm_num [clampRat]

/-- C2 (amended): the skills-match percentage is 0 when the candidate has
no skills; otherwise it is 100 · matched/total where a normalized skill
counts as matched only when it is non-empty and occurs as a substring of
the lowercased `requirements + ' ' + description` haystack; and it equals
100 exactly when the skill list is non-empty and every skill is non-empty
after normalization and occurs in the haystack. -/
theorem calculateSkillsMatch_amended (db : DB) (uid jid : Nat)
    (u : User) (j : JobRequisition)
    (hu : findUser db uid = some u) (hj : findJob db jid = some j) :
    (u.skills = [] → calculateSkillsMatch uid jid db = 0) ∧
    (u.skills ≠ [] →
      calculateSkillsMatch uid jid db
        = 100 * (matchedSkillCount u j : ℚ) / (u.skills.length : ℚ)) ∧
    (calculateSkillsMatch uid jid db = 100 ↔
      u.skills ≠ [] ∧ ∀ s ∈ u.skills,
        strTrim (strLower s) ≠ "" ∧
        strContains (skillsHaystack j) (strTrim (strLower s)) = true) := by
  have hcode : calculateSkillsMatch uid jid db =
      if (normalizedSkills u).length = 0 then (0 : ℚ)
      else clampRat (((matchedSkillCount u j : ℚ)
        / ((normalizedSkills u).length : ℚ)) * 100) := by
    simp only [calculateSkillsMatch, hu, hj]
    rfl
  have hlen : (normalizedSkills u).length = u.skills.length :=
    List.length_map _ _
  have hle : matchedSkillCount u j ≤ u.skills.length := by
    have h := List.length_filter_le
      (fun skill => skill ≠ "" && strContains (skillsHaystack j) skill)
      (normalizedSkills u)
    simpa [matchedSkillCount, hlen] using h
  rcases eq_or_ne u.skills [] with hnil | hnil
  · refine ⟨fun _ => ?_, fun h => absurd hnil h, ?_⟩
    · rw [hcode]
      simp [normalizedSkills, hnil]
    · rw [hcode]
      simp only [normalizedSkills, hnil, List.map_nil, List.length_nil, if_pos]
      constructor
      · intro h
        norm_num at h
      · rintro ⟨hne, -⟩
        exact absurd rfl hne
  · have hn0 : u.skills.length ≠ 0 := by
      simpa [List.length_eq_zero] using hnil
    have hval : calculateSkillsMatch uid jid db
        = ((matchedSkillCount u j : ℚ) / (u.skills.length : ℚ)) * 100 := by
      rw [hcode, hlen, if_neg hn0]
      exact clampRat_ratio _ _ hle
    refine ⟨fun h => absurd h hnil, fun _ => ?_, ?_⟩
    · rw [hval]
      ring
    · rw [hval, ratio_eq_hundred_iff _ _ hn0 hle]
      constructor
      · intro hmn
        refine ⟨hnil, ?_⟩
        have hall : ∀ s ∈ normalizedSkills u,
            (s ≠ "" && strContains (skillsHaystack j) s) = true := by
          rw [← List.filter_length_eq_length]
          simpa [matchedSkillCount, hlen] using hmn
        intro s hs
        have hmem : strTrim (strLower s) ∈ normalizedSkills u :=
          List.mem_map_of_mem _ hs
        simpa [Bool.and_eq_true, decide_eq_true_eq] using hall _ hmem
      · rintro ⟨-, hall⟩
        have hall' : ∀ s ∈ normalizedSkills u,
            (s ≠ "" && strContains (skillsHaystack j) s) = true := by
          intro s hs
          rcases List.mem_map.mp hs with ⟨a, ha, rfl⟩
          simpa [Bool.and_eq_true, decide_eq_true_eq] using hall a ha
        have h := List.filter_length_eq_length.mpr hall'
        simpa [matchedSkillCount, hlen] using h

/-- C2 (witness for the amended theorem): on a concrete store whose only
candidate has no skills, the amended theorem yields a match of 0. -/
theorem calculateSkillsMatch_amended_witness :
    (calculateSkillsMatch 1 1 cexDb1 = 0) ∧ cexUser1.skills = [] := by
  refine ⟨?_, by decide⟩
  exact (calculateSkillsMatch_amended cexDb1 1 1 cexUser1 cexJob1 rfl rfl).1 (by decide)

/-! ### Application admission control (`createJobApplication`) -/

/-- JavaScript `x || null` on a nullable number: `0` collapses to `null`. -/
def jsNumOrNull : Option Nat → Option Nat
  | none => none
  | some v => if v = 0 then none else some v

/-- Input shape of `createJobApplication` (zod
`createJobApplicationInputSchema`). -/
structure CreateJobApplicationInput where
  job_id : Nat
  user_id : Nat
  application_path : ApplicationPath
  vendor_id : Option Nat
  cover_letter : Option String
  resume_url : Option String
  custom_responses : List (String × String)
  consent_given : Bool
deriving DecidableEq, Repr

/-- The distinguishable failures thrown by `createJobApplication` (one per
`throw new Error(...)` site, in source order). -/
inductive CreateAppError
  | jobNotFound | userNotFound | vendorInvalid | duplicateApplication | pathNotAllowed
deriving DecidableEq, Repr

/-- `createJobApplication(input)`: validates job, user, vendor (when a
truthy vendor id is supplied), duplicate (job,user) pair and allowed path,
in that order; on success inserts one application row with the three
computed scores, the schema-default status `pending`, and a consent
timestamp exactly when consent was given. -/
def createJobApplication (input : CreateJobApplicationInput) (now : Nat)
    (db : DB) : Except CreateAppError (JobApplication × DB) :=
  match findJob db input.job_id with
  | none => .error .jobNotFound
  | some job =>
    match findUser db input.user_id with
    | none => .error .userNotFound
    | some _user =>
      if jsTruthyNum input.vendor_id
          && (db.vendors.filter
            (fun v => v.id == input.vendor_id.getD 0 && v.is_active)).length == 0 then
        .error .vendorInvalid
      else if (db.applications.filter
          (fun a => a.job_id == input.job_id && a.user_id == input.user_id)).length > 0 then
        .error .duplicateApplication
      else if !(job.allowed_application_paths.contains input.application_path) then
        .error .pathNotAllowed
      else
        let eligibilityScore := calculateEligibilityScore input.user_id input.job_id db
        let readinessScore := calculateReadinessScore input.user_id db
        let skillsMatchPercentage := calculateSkillsMatch input.user_id input.job_id db
        let consentTimestamp := if input.consent_given then some now else none
        let application : JobApplication :=
          { id := db.applications.length + 1,
            job_id := input.job_id,
            user_id := input.user_id,
            application_path := input.application_path,
            vendor_id := jsNumOrNull input.vendor_id,
            cover_letter := jsStrOrNull input.cover_letter,
            resume_url := jsStrOrNull input.resume_url,
            custom_responses := input.custom_responses,
            eligibility_score := eligibilityScore,
            readiness_score := readinessScore,
            skills_match_percentage := skillsMatchPercentage,
            status := .pending,
            applied_at := now,
            last_updated := now,
            consent_given := input.consent_given,
            consent_timestamp := consentTimestamp }
        .ok (application, { db with applications := db.applications ++ [application] })

/-- The ordered admission checklist as C4 words it: job exists, candidate
exists, a supplied (truthy) vendor id references an active vendor, no
prior application for the (job, user) pair, and the chosen path is
allowed by the job. -/
def admissionErrorSpec (input : CreateJobApplicationInput) (db : DB) :
    Option CreateAppError :=
  match findJob db input.job_id with
  | none => some .jobNotFound
  | some job =>
    match findUser db input.user_id with
    | none => some .userNotFound
    | some _ =>
      if jsTruthyNum input.vendor_id = true
          ∧ ¬ ∃ v ∈ db.vendors, v.id = input.vendor_id.getD 0 ∧ v.is_active = true then
        some .vendorInvalid
      else if ∃ a ∈ db.applications,
          a.job_id = input.job_id ∧ a.user_id = input.user_id then
        some .duplicateApplication
      else if input.application_path ∉ job.allowed_application_paths then
        some .pathNotAllowed
      else
        none

/-- The code's vendor-validation boolean matches the spec-side condition. -/
theorem vendor_cond_iff (input : CreateJobApplicationInput) (db : DB) :
    (jsTruthyNum input.vendor_id
      && (db.vendors.filter
        (fun v => v.id == input.vendor_id.getD 0 && v.is_active)).length == 0) = true
    ↔ (jsTruthyNum input.vendor_id = true
        ∧ ¬ ∃ v ∈ db.vendors, v.id = input.vendor_id.getD 0 ∧ v.is_active = true) := by
  simp [Bool.and_eq_true, List.length_eq_zero, List.filter_eq_nil_iff, not_exists]

/-- The code's duplicate-application check matches the spec-side
condition. -/
theorem dup_cond_iff (input : CreateJobApplicationInput) (db : DB) :
    ((db.applications.filter
      (fun a => a.job_id == input.job_id && a.user_id == input.user_id)).length > 0)
    ↔ ∃ a ∈ db.applications, a.job_id = input.job_id ∧ a.user_id = input.user_id := by
  constructor
  · intro h
    have hne : (db.applications.filter
        (fun a => a.job_id == input.job_id && a.user_id == input.user_id)) ≠ [] := by
      intro hnil
      rw [hnil] at h
      simp at h
    rcases List.exists_mem_of_ne_nil _ hne with ⟨a, ha⟩
    have hmem := List.mem_filter.mp ha
    refine ⟨a, hmem.1, ?_⟩
    have := hmem.2
    simpa [Bool.and_eq_true] using this
  · rintro ⟨a, ha, h1, h2⟩
    have : a ∈ db.applications.filter
        (fun a => a.job_id == input.job_id && a.user_id == input.user_id) :=
      List.mem_filter.mpr ⟨ha, by simp [h1, h2]⟩
    have hne := List.ne_nil_of_mem this
    have := List.length_pos.mpr hne
    omega

/-- The code's path check matches the spec-side non-membership condition. -/
theorem path_cond_iff (input : CreateJobApplicationInput) (job : JobRequisition) :
    ((!(job.allowed_application_paths.contains input.application_path)) = true)
    ↔ input.application_path ∉ job.allowed_application_paths := by
  simp [List.elem_iff]

/-- C4: `createJobApplication` fails with each distinguishable error
exactly when the corresponding check of the ordered checklist (job exists,
candidate exists, supplied vendor id references an active vendor, no prior
(job,user) application, chosen path allowed) is the first to fail;
otherwise it persists exactly one new application carrying status
`pending`, the three computed scores, and a consent timestamp iff consent
was given. -/
theorem createJobApplication_spec (input : CreateJobApplicationInput)
    (now : Nat) (db : DB) :
    (∀ e, createJobApplication input now db = .error e
       ↔ admissionErrorSpec input db = some e)
    ∧ (admissionErrorSpec input db = none →
        ∃ app, createJobApplication input now db
            = .ok (app, { db with applications := db.applications ++ [app] })
          ∧ app.status = .pending
          ∧ app.job_id = input.job_id
          ∧ app.user_id = input.user_id
          ∧ app.application_path = input.application_path
          ∧ app.vendor_id = jsNumOrNull input.vendor_id
          ∧ app.eligibility_score = calculateEligibilityScore input.user_id input.job_id db
          ∧ app.readiness_score = calculateReadinessScore input.user_id db
          ∧ app.skills_match_percentage = calculateSkillsMatch input.user_id input.job_id db
          ∧ app.consent_given = input.consent_given
          ∧ app.consent_timestamp = (if input.consent_given then some now else none)) := by
  cases hJ : findJob db input.job_id with
  | none =>
    refine ⟨fun e => ?_, fun h => ?_⟩
    · simp [createJobApplication, admissionErrorSpec, hJ]
    · simp [admissionErrorSpec, hJ] at h
  | some job =>
    cases hU : findUser db input.user_id with
    | none =>
      refine ⟨fun e => ?_, fun h => ?_⟩
      · simp [createJobApplication, admissionErrorSpec, hJ, hU]
      · simp [admissionErrorSpec, hJ, hU] at h
    | some user =>
      by_cases hV : jsTruthyNum input.vendor_id = true
          ∧ ¬ ∃ v ∈ db.vendors, v.id = input.vendor_id.getD 0 ∧ v.is_active = true
      · have hV' := (vendor_cond_iff input db).mpr hV
        refine ⟨fun e => ?_, fun h => ?_⟩
        · simp only [createJobApplication, admissionErrorSpec, hJ, hU]
          rw [if_pos hV', if_pos hV]
          simp
        · simp only [admissionErrorSpec, hJ, hU] at h
          rw [if_pos hV] at h
          simp at h
      · have hV' : ¬ ((jsTruthyNum input.vendor_id
            && (db.vendors.filter
              (fun v => v.id == input.vendor_id.getD 0 && v.is_active)).length == 0) = true) :=
          fun hc => hV ((vendor_cond_iff input db).mp hc)
        by_cases hD : ∃ a ∈ db.applications,
            a.job_id = input.job_id ∧ a.user_id = input.user_id
        · have hD' := (dup_cond_iff input db).mpr hD
          refine ⟨fun e => ?_, fun h => ?_⟩
          · simp only [createJobApplication, admissionErrorSpec, hJ, hU]
            rw [if_neg hV', if_neg hV, if_pos hD', if_pos hD]
            simp
          · simp only [admissionErrorSpec, hJ, hU] at h
            rw [if_neg hV, if_pos hD] at h
            simp at h
        · have hD' : ¬ ((db.applications.filter
              (fun a => a.job_id == input.job_id && a.user_id == input.user_id)).length > 0) :=
            fun hc => hD ((dup_cond_iff input db).mp hc)
          by_cases hP : input.application_path ∉ job.allowed_application_paths
          · have hP' := (path_cond_iff input job).mpr hP
            refine ⟨fun e => ?_, fun h => ?_⟩
            · simp only [createJobApplication, admissionErrorSpec, hJ, hU]
              rw [if_neg hV', if_neg hV, if_neg hD', if_neg hD, if_pos hP', if_pos hP]
              simp
            · simp only [admissionErrorSpec, hJ, hU] at h
              rw [if_neg hV, if_neg hD, if_pos hP] at h
              simp at h
          · have hP' : ¬ ((!(job.allowed_application_paths.contains
                input.application_path)) = true) :=
              fun hc => hP ((path_cond_iff input job).mp hc)
            refine ⟨fun e => ?_, fun _ => ?_⟩
            · simp only [createJobApplication, admissionErrorSpec, hJ, hU]
              rw [if_neg hV', if_neg hV, if_neg hD', if_neg hD, if_neg hP', if_neg hP]
              simp
            · simp only [createJobApplication, hJ, hU]
              rw [if_neg hV', if_neg hD', if_neg hP']
              exact ⟨_, rfl, rfl, rfl, rfl, rfl, rfl, rfl, rfl, rfl, rfl, rfl⟩

/-- A well-formed direct application input. -/
def okInput : CreateJobApplicationInput :=
  { job_id := 1, user_id := 1, application_path := .direct, vendor_id := none,
    cover_letter := none, resume_url := none, custom_responses := [],
    consent_given := true }

/-- A store holding one candidate and one job that allows direct
applications. -/
def okDb : DB :=
  { users := [baseUser], jobs := [baseJob], vendors := [], applications := [] }

/-- C4 (witness): on a concrete store the admission checklist passes and
one pending application is persisted. -/
theorem createJobApplication_spec_witness :
    admissionErrorSpec okInput okDb = none ∧
    (∃ app, createJobApplication okInput 5 okDb
        = .ok (app, { okDb with applications := okDb.applications ++ [app] })
      ∧ app.status = .pending
      ∧ app.job_id = okInput.job_id
      ∧ app.user_id = okInput.user_id
      ∧ app.application_path = okInput.application_path
      ∧ app.vendor_id = jsNumOrNull okInput.vendor_id
      ∧ app.eligibility_score = calculateEligibilityScore okInput.user_id okInput.job_id okDb
      ∧ app.readiness_score = calculateReadinessScore okInput.user_id okDb
      ∧ app.skills_match_percentage = calculateSkillsMatch okInput.user_id okInput.job_id okDb
      ∧ app.consent_given = okInput.consent_given
      ∧ app.consent_timestamp = (if okInput.consent_given then some 5 else none)) :=
  ⟨by decide, (createJobApplication_spec okInput 5 okDb).2 (by decide)⟩

/-- A job that allows both direct and vendor applications. -/
def vendorJob : JobRequisition :=
  { baseJob with allowed_application_paths := [.direct, .vendor] }

/-- A store with one candidate, one vendor-allowing job, and no vendors. -/
def vendorDb : DB :=
  { users := [baseUser], jobs := [vendorJob], vendors := [], applications := [] }

/-- A vendor-path application input that supplies no vendor id. -/
def vendorInput : CreateJobApplicationInput :=
  { job_id := 1, user_id := 1, application_path := .vendor, vendor_id := none,
    cover_letter := none, resume_url := none, custom_responses := [],
    consent_given := true }

/-- C5 (counterexample): a vendor-path application with no vendor id, on a
store containing no vendors at all, is accepted and persisted — the code
never requires a vendor reference for the vendor path, it only validates a
vendor id when one is (truthily) supplied. -/
theorem vendorPath_claim_cex :
    vendorInput.application_path = .vendor ∧ vendorInput.vendor_id = none
    ∧ vendorDb.vendors = []
    ∧ ∃ app db', createJobApplication vendorInput 0 vendorDb = .ok (app, db') :=
  ⟨rfl, rfl, rfl, ⟨_, _, rfl⟩⟩

/-- C5 (amended): only a supplied (truthy) vendor id is validated — on any
application path, if the supplied vendor id does not reference an existing
active vendor the call is rejected with a distinguishable failure and
nothing is persisted; a vendor-path application without a vendor id is not
rejected on vendor grounds. -/
theorem vendor_validation_amended (input : CreateJobApplicationInput)
    (now : Nat) (db : DB)
    (hv : jsTruthyNum input.vendor_id = true)
    (hno : ¬ ∃ v ∈ db.vendors, v.id = input.vendor_id.getD 0 ∧ v.is_active = true) :
    ∃ e, createJobApplication input now db = .error e := by
  cases hJ : findJob db input.job_id with
  | none => exact ⟨.jobNotFound, by simp [createJobApplication, hJ]⟩
  | some job =>
    cases hU : findUser db input.user_id with
    | none => exact ⟨.userNotFound, by simp [createJobApplication, hJ, hU]⟩
    | some user =>
      refine ⟨.vendorInvalid, ?_⟩
      simp only [createJobApplication, hJ, hU]
      rw [if_pos ((vendor_cond_iff input db).mpr ⟨hv, hno⟩)]

/-- A vendor-path application input supplying a dangling vendor id. -/
def vendorInput2 : CreateJobApplicationInput := { vendorInput with vendor_id := some 5 }

/-- C5 (witness for the amended theorem): a supplied vendor id on a store
with no vendors is rejected. -/
theorem vendor_validation_amended_witness :
    ∃ e, createJobApplication vendorInput2 0 vendorDb = .error e :=
  vendor_validation_amended vendorInput2 0 vendorDb (by decide) (by decide)

/-! ### Job search filter pipeline (`searchJobs`) -/

/-- Input shape of `searchJobs` (zod `jobSearchInputSchema`). -/
structure JobSearchInput where
  keywords : Option String
  location : Option String
  remote_allowed : Option Bool
  employment_types : Option (List String)
  salary_min : Option ℚ
  salary_max : Option ℚ
  organization_id : Option Nat
  skills : Option (List String)
  page : Nat
  limit : Nat
deriving DecidableEq, Repr

/-- The conjunction of the WHERE conditions built by `searchJobs`: the two
hard-wired status/visibility conditions plus one condition per supplied
criterion (JS-truthiness deciding whether a criterion counts as
supplied). -/
def jobMatchesSearch (input : JobSearchInput) (j : JobRequisition) : Bool :=
  (j.status = JobStatus.active)
  && (j.visibility_level = VisibilityLevel.public)
  && (match input.keywords with
      | some kw =>
        if kw = "" then true
        else strContainsCI j.title kw || strContainsCI j.description kw
          || strContainsCI j.requirements kw || strContainsCI j.responsibilities kw
      | none => true)
  && (match input.location with
      | some loc => if loc = "" then true else strContainsCI j.location loc
      | none => true)
  && (match input.remote_allowed with
      | some b => j.remote_allowed == b
      | none => true)
  && (match input.employment_types with
      | some types =>
        if types.length > 0 then types.contains j.employment_type else true
      | none => true)
  && (match input.salary_min with
      | some v =>
        match j.salary_max with
        | some s => v ≤ s
        | none => false
      | none => true)
  && (match input.salary_max with
      | some v =>
        match j.salary_min with
        | some s => s ≤ v
        | none => false
      | none => true)
  && (match input.organization_id with
      | some o => if o = 0 then true else j.organization_id == o
      | none => true)
  && (match input.skills with
      | some skills =>
        if skills.length > 0 then
          skills.any (fun skill => strContainsCI j.requirements skill)
        else true
      | none => true)

/-- The row order produced by `ORDER BY published_at DESC` (PostgreSQL
puts NULLs first under DESC). -/
def publishedDescBool (a b : JobRequisition) : Bool :=
  match a.published_at, b.published_at with
  | none, _ => true
  | some _, none => false
  | some x, some y => y ≤ x

/-- `a` may come before `b` under `ORDER BY published_at DESC`. -/
def jobDescOrder (a b : JobRequisition) : Prop := publishedDescBool a b = true

instance : DecidableRel jobDescOrder := fun a b =>
  inferInstanceAs (Decidable (publishedDescBool a b = true))

instance : IsTotal JobRequisition jobDescOrder := by
  constructor
  intro a b
  unfold jobDescOrder publishedDescBool
  cases a.published_at <;> cases b.published_at <;> ((try simp); (try omega))

instance : IsTrans JobRequisition jobDescOrder := by
  constructor
  intro a b c
  unfold jobDescOrder publishedDescBool
  cases a.published_at <;> cases b.published_at <;> cases c.published_at <;> ((try simp); (try omega))

/-- The `ORDER BY published_at DESC` sort. -/
def sortJobs (l : List JobRequisition) : List JobRequisition :=
  l.insertionSort jobDescOrder

/-- Result shape of `searchJobs`. -/
structure JobSearchResult where
  jobs : List JobRequisition
  total : Nat
  page : Nat
  limit : Nat
  hasMore : Bool
deriving DecidableEq, Repr

/-- `searchJobs(input)`: filter to the matching rows, order by
published_at descending, paginate by `offset = (page-1)*limit` and
`limit`, and report the unpaginated match count plus a has-more flag. -/
def searchJobs (input : JobSearchInput) (db : DB) : JobSearchResult :=
  let offset := (input.page - 1) * input.limit
  let matching := db.jobs.filter (jobMatchesSearch input)
  let results := ((sortJobs matching).drop offset).take input.limit
  let total := matching.length
  { jobs := results, total := total, page := input.page, limit := input.limit,
    hasMore := decide (offset + results.length < total) }

/-! ### Recommendation engine (`getRecommendedJobs`) -/

/-- Job ids of the applications the candidate already filed. -/
def appliedJobIds (db : DB) (userId : Nat) : List Nat :=
  (db.applications.filter (fun a => a.user_id == userId)).map (fun a => a.job_id)

/-- The branch condition `getRecommendedJobs` pushes, mirroring the
source's `hasMatchingCriteria` control flow (the final guard repeats the
source's redundant test; it is always true at that point). -/
def recommendBranchCond (userProfile : User) (j : JobRequisition) : Bool :=
  if userProfile.skills.length > 0 then
    userProfile.skills.any (fun skill => strContainsCI j.requirements skill)
  else if userProfile.preferred_locations.length > 0 then
    userProfile.preferred_locations.any (fun loc => strContainsCI j.location loc)
  else if jsTruthyStr userProfile.location then
    strContainsCI j.location (userProfile.location.getD "")
  else if !(jsTruthyStr userProfile.location)
      || userProfile.preferred_locations.length == 0 then
    j.remote_allowed
  else
    true

/-- The strict-priority branch selection as C7 words it: skills, else
preferred locations, else current location, else remote-allowed — never
combined. -/
def recommendBranchSpec (u : User) (j : JobRequisition) : Bool :=
  if u.skills ≠ [] then
    u.skills.any (fun skill => strContainsCI j.requirements skill)
  else if u.preferred_locations ≠ [] then
    u.preferred_locations.any (fun loc => strContainsCI j.location loc)
  else if jsTruthyStr u.location then
    strContainsCI j.location (u.location.getD "")
  else
    j.remote_allowed

/-- The source's flag-driven branch construction coincides with the
strict-priority chain. -/
theorem recommendBranchCond_eq_spec (u : User) (j : JobRequisition) :
    recommendBranchCond u j = recommendBranchSpec u j := by
  unfold recommendBranchCond recommendBranchSpec
  rcases eq_or_ne u.skills [] with hs | hs <;>
    rcases eq_or_ne u.preferred_locations [] with hp | hp <;>
      simp [hs, hp, List.length_pos, List.length_eq_zero]

/-- `getRecommendedJobs(userId, limit)`: empty for a missing candidate;
otherwise active public jobs, minus already-applied ones, restricted by
the selected branch condition, ordered by published_at descending, first
`limit` rows. -/
def getRecommendedJobs (userId : Nat) (limit : Nat) (db : DB) :
    List JobRequisition :=
  match findUser db userId with
  | none => []
  | some userProfile =>
    let applied := appliedJobIds db userId
    let matching := db.jobs.filter (fun j =>
      (j.status = JobStatus.active)
      && (j.visibility_level = VisibilityLevel.public)
      && (applied.length == 0 || !(applied.contains j.id))
      && recommendBranchCond userProfile j)
    (sortJobs matching).take limit

/-- C6: every job returned by `searchJobs` — under any combination of
criteria — and every job returned by `getRecommendedJobs` has status
`active` and visibility `public`; draft/internal/restricted/private jobs
cannot be retrieved through these paths. -/
theorem search_visibility_invariant (db : DB) (j : JobRequisition) :
    (∀ input, j ∈ (searchJobs input db).jobs →
       j.status = JobStatus.active ∧ j.visibility_level = VisibilityLevel.public)
    ∧ (∀ uid lim, j ∈ getRecommendedJobs uid lim db →
       j.status = JobStatus.active ∧ j.visibility_level = VisibilityLevel.public) := by
  constructor
  · intro input hmem
    unfold searchJobs at hmem
    have h1 : j ∈ sortJobs (db.jobs.filter (jobMatchesSearch input)) :=
      List.drop_subset _ _ (List.take_subset _ _ hmem)
    have h2 : j ∈ db.jobs.filter (jobMatchesSearch input) :=
      (List.perm_insertionSort jobDescOrder _).subset h1
    have h3 := (List.mem_filter.mp h2).2
    unfold jobMatchesSearch at h3
    simp only [Bool.and_eq_true, and_assoc, decide_eq_true_eq] at h3
    exact ⟨h3.1, h3.2.1⟩
  · intro uid lim hmem
    unfold getRecommendedJobs at hmem
    cases hU : findUser db uid with
    | none =>
      simp only [hU] at hmem
      simp at hmem
    | some u =>
      simp only [hU] at hmem
      have h1 := (List.perm_insertionSort jobDescOrder _).subset
        (List.take_subset _ _ hmem)
      have h3 := (List.mem_filter.mp h1).2
      simp only [Bool.and_eq_true, and_assoc, decide_eq_true_eq] at h3
      exact ⟨h3.1, h3.2.1⟩

/-- The empty search input (zod defaults: page 1, limit 20). -/
def defaultSearchInput : JobSearchInput :=
  { keywords := none, location := none, remote_allowed := none,
    employment_types := none, salary_min := none, salary_max := none,
    organization_id := none, skills := none, page := 1, limit := 20 }

/-- C6 (witness): a concrete active public job is returned by an
unfiltered search, and the invariant instantiates on it. -/
theorem search_visibility_invariant_witness :
    baseJob ∈ (searchJobs defaultSearchInput okDb).jobs ∧
    (baseJob.status = JobStatus.active
      ∧ baseJob.visibility_level = VisibilityLevel.public) := by
  have hm : baseJob ∈ (searchJobs defaultSearchInput okDb).jobs := by decide
  exact ⟨hm, (search_visibility_invariant okDb baseJob).1 defaultSearchInput hm⟩

/-- The empty store. -/
def emptyDb : DB := { users := [], jobs := [], vendors := [], applications := [] }

/-- Five active public jobs with distinct publication times. -/
def fiveDb : DB :=
  { users := [], vendors := [], applications := [],
    jobs := [
      { baseJob with id := 1, published_at := some 5 },
      { baseJob with id := 2, published_at := some 4 },
      { baseJob with id := 3, published_at := some 3 },
      { baseJob with id := 4, published_at := some 2 },
      { baseJob with id := 5, published_at := some 1 } ] }

/-- An unfiltered search for page `p` with limit 2. -/
def pageInput (p : Nat) : JobSearchInput :=
  { defaultSearchInput with page := p, limit := 2 }

/-- C8: pagination of `searchJobs` — `total` counts all matching rows
ignoring pagination, the page/limit echo the input, the returned slice has
length `min limit (total - (page-1)*limit)`, `hasMore` holds exactly when
`(page-1)*limit + returned < total`, and the results are ordered by
published_at descending; concretely, the empty store yields
`{jobs := [], total := 0, hasMore := false}`, and five matching jobs with
limit 2 give pages of sizes 2/2/1 with hasMore true/true/false and total 5
throughout. -/
theorem searchJobs_pagination_spec :
    (∀ input db,
      (searchJobs input db).total = (db.jobs.filter (jobMatchesSearch input)).length
      ∧ (searchJobs input db).page = input.page
      ∧ (searchJobs input db).limit = input.limit
      ∧ (searchJobs input db).jobs.length
          = min input.limit
            ((db.jobs.filter (jobMatchesSearch input)).length
              - (input.page - 1) * input.limit)
      ∧ ((searchJobs input db).hasMore = true
          ↔ (input.page - 1) * input.limit + (searchJobs input db).jobs.length
              < (searchJobs input db).total)
      ∧ List.Sorted jobDescOrder (searchJobs input db).jobs)
    ∧ searchJobs defaultSearchInput emptyDb
        = { jobs := [], total := 0, page := 1, limit := 20, hasMore := false }
    ∧ ((searchJobs (pageInput 1) fiveDb).jobs.length = 2
      ∧ (searchJobs (pageInput 1) fiveDb).hasMore = true
      ∧ (searchJobs (pageInput 1) fiveDb).total = 5
      ∧ (searchJobs (pageInput 2) fiveDb).jobs.length = 2
      ∧ (searchJobs (pageInput 2) fiveDb).hasMore = true
      ∧ (searchJobs (pageInput 2) fiveDb).total = 5
      ∧ (searchJobs (pageInput 3) fiveDb).jobs.length = 1
      ∧ (searchJobs (pageInput 3) fiveDb).hasMore = false
      ∧ (searchJobs (pageInput 3) fiveDb).total = 5) := by
  refine ⟨fun input db => ⟨rfl, rfl, rfl, ?_, ?_, ?_⟩, by decide, by decide⟩
  · show (((sortJobs (db.jobs.filter (jobMatchesSearch input))).drop
        ((input.page - 1) * input.limit)).take input.limit).length = _
    rw [List.length_take, List.length_drop]
    unfold sortJobs
    rw [List.length_insertionSort]
  · constructor
    · intro h
      exact of_decide_eq_true h
    · intro h
      exact decide_eq_true h
  · have hs : List.Sorted jobDescOrder
        (sortJobs (db.jobs.filter (jobMatchesSearch input))) :=
      List.sorted_insertionSort _ _
    exact List.Pairwise.sublist
      ((List.take_sublist _ _).trans (List.drop_sublist _ _)) hs

/-- C7: `getRecommendedJobs` is empty for a non-existent candidate; every
returned job has not been applied to by the candidate and satisfies the
strict-priority branch condition (skills, else preferred locations, else
current location, else remote-allowed); and the code's flag-driven branch
construction equals that strict-priority chain — the branches are never
combined. -/
theorem getRecommendedJobs_spec (uid lim : Nat) (db : DB) :
    (findUser db uid = none → getRecommendedJobs uid lim db = [])
    ∧ (∀ u, findUser db uid = some u →
        ∀ j ∈ getRecommendedJobs uid lim db,
          j.id ∉ appliedJobIds db uid ∧ recommendBranchSpec u j = true)
    ∧ (∀ u j, recommendBranchCond u j = recommendBranchSpec u j) := by
  refine ⟨fun h => ?_, fun u hu j hmem => ?_, recommendBranchCond_eq_spec⟩
  · unfold getRecommendedJobs
    rw [h]
  · unfold getRecommendedJobs at hmem
    rw [hu] at hmem
    have h1 := (List.perm_insertionSort jobDescOrder _).subset
      (List.take_subset _ _ hmem)
    have h3 := (List.mem_filter.mp h1).2
    simp only [Bool.and_eq_true, and_assoc] at h3
    obtain ⟨-, -, hap, hbr⟩ := h3
    refine ⟨?_, by rw [← recommendBranchCond_eq_spec]; exact hbr⟩
    rcases Bool.or_eq_true _ _ |>.mp hap with hlen | hnc
    · have : appliedJobIds db uid = [] := by
        simpa [List.length_eq_zero] using hlen
      simp [this]
    · intro hm
      simp at hnc
      exact hnc hm

/-- A candidate whose single skill occurs in `baseJob`'s requirements. -/
def recUser : User := { baseUser with skills := ["r"] }

/-- A store for the recommendation witness. -/
def recDb : DB :=
  { users := [recUser], jobs := [baseJob], vendors := [], applications := [] }

/-- C7 (witness): a concrete candidate with one matching skill receives
`baseJob`, which they have not applied to and which satisfies the skills
branch. -/
theorem getRecommendedJobs_spec_witness :
    baseJob ∈ getRecommendedJobs 1 10 recDb ∧
    (baseJob.id ∉ appliedJobIds recDb 1
      ∧ recommendBranchSpec recUser baseJob = true) := by
  have hm : baseJob ∈ getRecommendedJobs 1 10 recDb := by decide
  exact ⟨hm, (getRecommendedJobs_spec 1 10 recDb).2.1 recUser rfl baseJob hm⟩

/-! ### Publishing a requisition (`publishJobRequisition`) -/

/-- The row update applied by a successful publish. -/
def publishUpdate (now : Nat) (j : JobRequisition) : JobRequisition :=
  { j with status := JobStatus.active, published_at := some now, updated_at := now }

/-- `UPDATE job_requisitions SET ... WHERE id = id` applied to the rows. -/
def publishJobsUpdate (id now : Nat) (jobs : List JobRequisition) :
    List JobRequisition :=
  jobs.map (fun j => if j.id == id then publishUpdate now j else j)

/-- `publishJobRequisition(id)`: null (and no mutation) when the job is
missing, not in draft status, or has an empty required text field;
otherwise sets status `active` and stamps `published_at`/`updated_at`. -/
def publishJobRequisition (id : Nat) (now : Nat) (db : DB) :
    Option JobRequisition × DB :=
  match findJob db id with
  | none => (none, db)
  | some existingJob =>
    if existingJob.status ≠ JobStatus.draft then (none, db)
    else if existingJob.title = "" ∨ existingJob.description = ""
        ∨ existingJob.requirements = "" ∨ existingJob.responsibilities = "" then
      (none, db)
    else
      (some (publishUpdate now existingJob),
        { db with jobs := publishJobsUpdate id now db.jobs })

/-- Updating rows in place commutes with the id lookup when the update
preserves ids. -/
theorem find_map_id_pred (l : List JobRequisition) (id : Nat)
    (f : JobRequisition → JobRequisition) (hf : ∀ j, (f j).id = j.id) :
    (l.map f).find? (fun j => j.id == id)
      = (l.find? (fun j => j.id == id)).map f := by
  induction l with
  | nil => rfl
  | cons a t ih =>
    simp only [List.map_cons, List.find?, hf a]
    cases h : (a.id == id) with
    | true => simp
    | false => simpa using ih

/-- C9: `publishJobRequisition` returns null and leaves the store
unmutated when the job does not exist, is not a draft, or has an empty
title/description/requirements/responsibilities; on a well-formed draft it
returns the job with status `active` and a non-null `published_at`, and
calling it again on the updated store is a no-op failure. -/
theorem publishJobRequisition_spec (id now : Nat) (db : DB) :
    (findJob db id = none → publishJobRequisition id now db = (none, db))
    ∧ (∀ job, findJob db id = some job →
        (job.status ≠ JobStatus.draft
          ∨ job.title = "" ∨ job.description = ""
          ∨ job.requirements = "" ∨ job.responsibilities = "") →
        publishJobRequisition id now db = (none, db))
    ∧ (∀ job, findJob db id = some job →
        job.status = JobStatus.draft →
        job.title ≠ "" → job.description ≠ "" →
        job.requirements ≠ "" → job.responsibilities ≠ "" →
        ∃ j', (publishJobRequisition id now db).1 = some j'
          ∧ j'.status = JobStatus.active
          ∧ j'.published_at = some now
          ∧ ∀ now2, publishJobRequisition id now2 (publishJobRequisition id now db).2
              = (none, (publishJobRequisition id now db).2)) := by
  refine ⟨fun h => ?_, fun job hJ hbad => ?_, fun job hJ hdraft h1 h2 h3 h4 => ?_⟩
  · simp only [publishJobRequisition, h]
  · simp only [publishJobRequisition, hJ]
    rcases hbad with hb | hb | hb | hb | hb
    · rw [if_pos hb]
    all_goals
      rcases eq_or_ne job.status JobStatus.draft with hs | hs
      · rw [if_neg (fun hc => hc hs), if_pos (by tauto)]
      · rw [if_pos hs]
  · have hgood : ¬ (job.title = "" ∨ job.description = ""
        ∨ job.requirements = "" ∨ job.responsibilities = "") := by tauto
    have hnd : ¬ (job.status ≠ JobStatus.draft) := fun hc => hc hdraft
    have hcode : publishJobRequisition id now db
        = (some (publishUpdate now job),
           { db with jobs := publishJobsUpdate id now db.jobs }) := by
      simp only [publishJobRequisition, hJ]
      rw [if_neg hnd, if_neg hgood]
    refine ⟨publishUpdate now job, by rw [hcode], rfl, rfl, fun now2 => ?_⟩
    have hid : ∀ j : JobRequisition,
        ((fun j => if j.id == id then publishUpdate now j else j) j).id = j.id := by
      intro j
      by_cases h : (j.id == id) = true
      · simp [h, publishUpdate]
      · simp [h]
    have hfind2 : findJob (publishJobRequisition id now db).2 id
        = some (publishUpdate now job) := by
      rw [hcode]
      show (publishJobsUpdate id now db.jobs).find? (fun j => j.id == id) = _
      unfold publishJobsUpdate
      rw [find_map_id_pred _ _ _ hid]
      have hJ' : db.jobs.find? (fun j => j.id == id) = some job := hJ
      rw [hJ']
      have hjid := List.find?_some hJ'
      simp only [Option.map_some']
      rw [if_pos (show (job.id == id) = true from hjid)]
    revert hfind2
    generalize (publishJobRequisition id now db).2 = db2
    intro hfind2
    simp only [publishJobRequisition, hfind2]
    rw [if_pos (show (publishUpdate now job).status ≠ JobStatus.draft by
      simp [publishUpdate])]

/-- A well-formed draft job. -/
def draftJob : JobRequisition :=
  { baseJob with status := JobStatus.draft, published_at := none }

/-- A store holding the single draft job. -/
def pubDb : DB :=
  { users := [], jobs := [draftJob], vendors := [], applications := [] }

/-- C9 (witness): publishing the concrete draft job succeeds, activates
it, stamps `published_at`, and a second publish on the updated store is a
no-op failure. -/
theorem publishJobRequisition_spec_witness :
    ∃ j', (publishJobRequisition 1 7 pubDb).1 = some j'
      ∧ j'.status = JobStatus.active
      ∧ j'.published_at = some 7
      ∧ ∀ now2, publishJobRequisition 1 now2 (publishJobRequisition 1 7 pubDb).2
          = (none, (publishJobRequisition 1 7 pubDb).2) :=
  (publishJobRequisition_spec 1 7 pubDb).2.2 draftJob rfl rfl
    (by decide) (by decide) (by decide) (by decide)

/-! ### Application status updates (`updateApplicationStatus`) -/

/-- Input shape of `updateApplicationStatus` (zod
`updateApplicationStatusInputSchema`). -/
structure UpdateApplicationStatusInput where
  id : Nat
  status : ApplicationStatus
deriving DecidableEq, Repr

/-- `SELECT * FROM job_applications WHERE id = aid` (first matching row). -/
def findApplication (db : DB) (aid : Nat) : Option JobApplication :=
  db.applications.find? (fun a => a.id == aid)

/-- The row update applied by `updateApplicationStatus`: overwrite the
status and refresh `last_updated`, leaving every other column alone. -/
def statusUpdate (st : ApplicationStatus) (now : Nat) (a : JobApplication) :
    JobApplication :=
  { a with status := st, last_updated := now }

/-- `UPDATE job_applications SET status, last_updated WHERE id = aid`
applied to the rows. -/
def applicationsStatusUpdate (aid : Nat) (st : ApplicationStatus) (now : Nat)
    (apps : List JobApplication) : List JobApplication :=
  apps.map (fun a => if a.id == aid then statusUpdate st now a else a)

/-- `updateApplicationStatus(input)`: unconditional status overwrite for
the row with the given id (no transition validation), refreshing
`last_updated`; null and no mutation when the row does not exist. -/
def updateApplicationStatus (input : UpdateApplicationStatusInput)
    (now : Nat) (db : DB) : Option JobApplication × DB :=
  match findApplication db input.id with
  | none => (none, db)
  | some app =>
    (some (statusUpdate input.status now app),
     { db with applications :=
        applicationsStatusUpdate input.id input.status now db.applications })

/-- C10: `updateApplicationStatus` returns null exactly when no
application with the given id exists (and then modifies nothing); for an
existing application it unconditionally overwrites the status with any
supplied enum value — any transition is permitted — refreshes
`last_updated`, leaves every other field of the row and every other row
and table unchanged. -/
theorem updateApplicationStatus_spec (input : UpdateApplicationStatusInput)
    (now : Nat) (db : DB) :
    ((updateApplicationStatus input now db).1 = none
      ↔ findApplication db input.id = none)
    ∧ (findApplication db input.id = none →
        updateApplicationStatus input now db = (none, db))
    ∧ (∀ app, findApplication db input.id = some app →
        (updateApplicationStatus input now db).1
            = some { app with status := input.status, last_updated := now }
        ∧ (updateApplicationStatus input now db).2.applications
            = applicationsStatusUpdate input.id input.status now db.applications
        ∧ (∀ a ∈ db.applications, a.id ≠ input.id →
            a ∈ (updateApplicationStatus input now db).2.applications)
        ∧ (updateApplicationStatus input now db).2.users = db.users
        ∧ (updateApplicationStatus input now db).2.jobs = db.jobs
        ∧ (updateApplicationStatus input now db).2.vendors = db.vendors) := by
  cases h : findApplication db input.id with
  | none =>
    refine ⟨?_, fun _ => ?_, fun app hap => ?_⟩
    · simp [updateApplicationStatus, h]
    · simp [updateApplicationStatus, h]
    · cases hap
  | some app0 =>
    refine ⟨?_, fun hc => ?_, fun app hap => ?_⟩
    · simp [updateApplicationStatus, h]
    · cases hc
    · obtain rfl : app0 = app := Option.some.inj hap
      have hcode : updateApplicationStatus input now db
          = (some (statusUpdate input.status now app0),
             { db with applications :=
                applicationsStatusUpdate input.id input.status now db.applications }) := by
        simp only [updateApplicationStatus, h]
      rw [hcode]
      refine ⟨rfl, rfl, fun a ha hne => ?_, rfl, rfl, rfl⟩
      unfold applicationsStatusUpdate
      have hmem := List.mem_map_of_mem
        (fun a => if a.id == input.id then statusUpdate input.status now a else a) ha
      have hmem2 : (if (a.id == input.id) = true then statusUpdate input.status now a else a)
          ∈ List.map
            (fun a => if (a.id == input.id) = true then statusUpdate input.status now a else a)
            db.applications := hmem
      rw [if_neg (by simpa using hne)] at hmem2
      exact hmem2

/-- A concrete application currently in the `accepted` state. -/
def app0 : JobApplication :=
  { id := 1, job_id := 1, user_id := 1, application_path := .direct,
    vendor_id := none, cover_letter := none, resume_url := none,
    custom_responses := [], eligibility_score := 0, readiness_score := 0,
    skills_match_percentage := 0, status := .accepted, applied_at := 0,
    last_updated := 0, consent_given := false, consent_timestamp := none }

/-- A store holding the single accepted application. -/
def appDb : DB := { users := [], jobs := [], vendors := [], applications := [app0] }

/-- A request moving the accepted application back to `pending`. -/
def statusInput : UpdateApplicationStatusInput :=
  { id := 1, status := ApplicationStatus.pending }

/-- C10 (witness): the concrete accepted application is moved back to
pending — no transition validation — with `last_updated` refreshed. -/
theorem updateApplicationStatus_spec_witness :
    (updateApplicationStatus statusInput 9 appDb).1
        = some { app0 with status := ApplicationStatus.pending, last_updated := 9 }
    ∧ (updateApplicationStatus statusInput 9 appDb).2.applications
        = applicationsStatusUpdate statusInput.id statusInput.status 9 appDb.applications :=
  ⟨((updateApplicationStatus_spec statusInput 9 appDb).2.2 app0 rfl).1,
   ((updateApplicationStatus_spec statusInput 9 appDb).2.2 app0 rfl).2.1⟩

end JobBoard
